import Mathlib

/-!
Verification of the `badnet` fault-injecting TCP proxy (package `badnet`).

The development shallowly embeds the current revision of the package
(the revision that carries the statistics counters, `Port`, and
`FailureRatio`).  Go machine integers are modelled as `Int`/`Nat`;
`crypto/rand.Int(rand.Reader, 100)` is modelled by passing the drawn
number explicitly as a parameter `draw : Nat` with `draw < 100` where
the draw's range matters; Go byte strings are modelled as `List Char`;
fallible operations return `Except`/`Option`.
-/

namespace Badnet

/-- Model of Go `error` values relevant to the proxy: `errClosed` is
`net.ErrClosed` (the deliberate close signal), `errUnexpectedEOF` is
`io.ErrUnexpectedEOF` (the injected-fault marker), `wrapped e` is an
error produced by `fmt.Errorf("...: %w", e)`, and `other n` stands for
any further distinct error value (e.g. a genuine connection reset). -/
inductive IOErr where
  | errClosed : IOErr
  | errUnexpectedEOF : IOErr
  | wrapped : IOErr → IOErr
  | other : Nat → IOErr
deriving DecidableEq, Repr

/-- Model of Go `errors.Is(err, net.ErrClosed)`: unwraps `%w` chains and
compares against `net.ErrClosed`. -/
def errorsIsClosed : IOErr → Bool
  | .errClosed => true
  | .wrapped e => errorsIsClosed e
  | _ => false

/-- Model of the error wrapping done by `listener.Accept`:
`fmt.Errorf("listener.Accept: %w", err)`. -/
def listenerAcceptWrap (e : IOErr) : IOErr := .wrapped e

/-- Embedding of `shouldFail` (current revision):

```go
func shouldFail(ratio int) bool {
    if ratio <= 0 {
        return false
    }
    n, _ := rand.Int(rand.Reader, maxChoice) // maxChoice = 100, so n in [0,100)
    return n.Int64() < int64(ratio)
}
```

The random draw `n` is passed explicitly as `draw`. -/
def shouldFail (ratio : Int) (draw : Nat) : Bool :=
  if ratio ≤ 0 then false else decide ((draw : Int) < ratio)

/-- Result of one Go `Read`/`Write` call: byte count and optional error. -/
structure XferResult where
  n : Nat
  err : Option IOErr
deriving DecidableEq, Repr

/-- A well-formed Go `io.Reader`/`io.Writer` transfers at most as many
bytes as the capacity of the slice it is handed (`0 <= n <= len(p)`). -/
def XferWF (u : Nat → XferResult) : Prop :=
  ∀ cap, (u cap).n ≤ cap

/-- Embedding of the fault-injecting `conn.Read` (current revision):

```go
func (c *conn) Read(b []byte) (n int, err error) {
    if shouldFail(c.readFailureRatio) {
        n, err = c.Conn.Read(b[:len(b)/2])
        if err == nil {
            err = io.ErrUnexpectedEOF
        }
        return n, err
    }
    return c.Conn.Read(b)
}
```

`underlying cap` models `c.Conn.Read(b[:cap])` (only the byte count and
error are tracked; the slice handed over is the prefix of length `cap`),
`lenB` is `len(b)`, and `draw` is the fault coin's random draw. -/
def connRead (readFailureRatio : Int) (draw : Nat) (lenB : Nat)
    (underlying : Nat → XferResult) : XferResult :=
  if shouldFail readFailureRatio draw then
    let r := underlying (lenB / 2)
    match r.err with
    | none => ⟨r.n, some .errUnexpectedEOF⟩
    | some e => ⟨r.n, some e⟩
  else underlying lenB

/-- Embedding of the fault-injecting `conn.Write` (current revision),
structurally identical to `conn.Read` but driven by the write-direction
failure ratio and `c.Conn.Write(b[:len(b)/2])`. -/
def connWrite (writeFailureRatio : Int) (draw : Nat) (lenB : Nat)
    (underlying : Nat → XferResult) : XferResult :=
  if shouldFail writeFailureRatio draw then
    let r := underlying (lenB / 2)
    match r.err with
    | none => ⟨r.n, some .errUnexpectedEOF⟩
    | some e => ⟨r.n, some e⟩
  else underlying lenB

/-- The proxy's statistics counters (`atomic.Uint32` fields of `Proxy`).
Counters are modelled as unbounded naturals: they are only ever
incremented by one per observed event. -/
structure Stats where
  connectionCount : Nat
  readFailures : Nat
  writeFailures : Nat
  targetFailures : Nat
deriving DecidableEq, Repr

/-- Embedding of `Proxy.FailureRatio` (current revision):

```go
func (p *Proxy) FailureRatio() float64 {
    connections := float64(p.connectionCount.Load())
    failures := float64(p.readFailures.Load() + p.writeFailures.Load() + p.targetFailures.Load())
    if connections == 0 {
        return 0
    }
    return failures / connections
}
```

The `float64` quotient is modelled as an exact rational. -/
def FailureRatio (s : Stats) : ℚ :=
  let connections : ℚ := (s.connectionCount : ℚ)
  let failures : ℚ :=
    ((s.readFailures + s.writeFailures + s.targetFailures : Nat) : ℚ)
  if connections = 0 then 0 else failures / connections

/-- Observable facts about one per-connection session goroutine:
whether the inbound connection ends up closed (its `defer conn.Close()`)
and whether the relay (`pipe` pair) was started. -/
structure SessionInfo where
  inboundClosed : Bool
  relayStarted : Bool
deriving DecidableEq, Repr

/-- Embedding of the session goroutine spawned per accepted connection
(current revision):

```go
go func(conn net.Conn) {
    defer conn.Close()
    target, err := net.Dial("tcp", p.conf.targetAddress())
    if err != nil {
        p.targetFailures.Add(1)
        t.Error(...)
        return
    }
    defer target.Close()
    errCh := make(chan error, 2)
    go pipe(errCh, conn, target, &p.readFailures)
    go pipe(errCh, target, conn, &p.writeFailures)
    <-errCh
}(conn)
```

`dialOk` abstracts the outcome of `net.Dial`; the relay's own counter
updates are modelled separately by `pipe`. -/
def runSession (dialOk : Bool) (s : Stats) : Stats × SessionInfo :=
  if dialOk then (s, ⟨true, true⟩)
  else ({s with targetFailures := s.targetFailures + 1}, ⟨true, false⟩)

/-- What one iteration of the accept loop does to the loop itself. -/
inductive LoopOutcome where
  | exitClean : LoopOutcome
  | exitError : IOErr → LoopOutcome
  | continueLoop : LoopOutcome
deriving DecidableEq, Repr

/-- Result of one accept-loop iteration: the loop outcome, the updated
statistics, and the observable facts of the session it spawned (if
any). -/
structure StepResult where
  outcome : LoopOutcome
  stats : Stats
  session : Option SessionInfo
deriving DecidableEq, Repr

/-- Embedding of one iteration of the accept loop in `ForTest`
(current revision):

```go
conn, err := ln.Accept()
if err != nil {
    if !errors.Is(err, net.ErrClosed) {
        t.Error("badnet listener accept error:", err)
    }
    return
}
p.connectionCount.Add(1)
go func(conn net.Conn) { ... }(conn)  // the session, see runSession
```

`res` is the `ln.Accept()` outcome; the session goroutine is run to its
dial decision in the same step (its concurrency is irrelevant to the
counter and lifecycle facts stated about it).  `LoopOutcome.exitError`
records the `t.Error` report followed by `return`;
`LoopOutcome.exitClean` is the silent `return` on `net.ErrClosed`. -/
def acceptLoopStep (res : Except IOErr Unit) (dialOk : Bool) (s : Stats) :
    StepResult :=
  match res with
  | .error e =>
      if errorsIsClosed e then ⟨.exitClean, s, none⟩
      else ⟨.exitError e, s, none⟩
  | .ok _ =>
      let s1 := {s with connectionCount := s.connectionCount + 1}
      let r := runSession dialOk s1
      ⟨.continueLoop, r.1, some r.2⟩

/-- Embedding of `pipe` (current revision):

```go
func pipe(errCh chan error, dst, src io.ReadWriter, counter *atomic.Uint32) {
    _, err := io.Copy(dst, src)
    if err != nil && !errors.Is(err, net.ErrClosed) {
        counter.Add(1)
    }
    errCh <- err
}
```

`copyErr` is the single error with which `io.Copy` terminated (`none`
for a clean EOF); the function returns the updated value of the fault
counter for this relay leg. -/
def pipe (copyErr : Option IOErr) (counter : Nat) : Nat :=
  match copyErr with
  | none => counter
  | some e => if errorsIsClosed e then counter else counter + 1

/-- Per-direction shaping/fault configuration (`Direction`).  `maxKBps`
is the Go `int`, `latency` the `time.Duration` in nanoseconds. -/
structure Direction where
  maxKBps : Int
  latency : Int
  failureRatio : Int
deriving DecidableEq, Repr

/-- The caller-supplied configuration (`Config`). -/
structure Config where
  listen : List Char
  target : List Char
  read : Direction
  write : Direction
deriving DecidableEq, Repr

/-- One direction of `throttle.Rate`. -/
structure ThrottleRate where
  kbps : Int
  latency : Int
deriving DecidableEq, Repr

/-- The fault-injecting listener built by `newListener`: a
`throttle.Listener` (down = read direction, up = write direction) whose
accepted connections are wrapped with the two failure ratios. -/
structure ShapedListener where
  down : ThrottleRate
  up : ThrottleRate
  readFailureRatio : Int
  writeFailureRatio : Int
deriving DecidableEq, Repr

/-- What `newListener` can hand to the accept loop: the raw TCP listener
unwrapped (a hard pass-through, skipping the shaping layer), or the
shaped fault-injecting wrapper. -/
inductive ListenerSetup where
  | raw : ListenerSetup
  | shaped : ShapedListener → ListenerSetup
deriving DecidableEq, Repr

/-- Embedding of `newListener` (current revision):

```go
func newListener(conf Config) (net.Listener, error) {
    ln, err := net.Listen("tcp", conf.Listen)
    if err != nil { ... }
    throttled := &throttle.Listener{
        Listener: ln,
        Down: throttle.Rate{KBps: conf.Read.MaxKBps, Latency: conf.Read.Latency},
        Up:   throttle.Rate{KBps: conf.Write.MaxKBps, Latency: conf.Write.Latency},
    }
    return &listener{
        throttled:         throttled,
        readFailureRatio:  conf.Read.FailureRatio,
        writeFailureRatio: conf.Write.FailureRatio,
    }, nil
}
```

The current source unconditionally wraps the raw listener; the
`ListenerSetup.raw` pass-through constructor exists only to express
that the skip path is never taken. -/
def newListener (conf : Config) : ListenerSetup :=
  .shaped
    { down := ⟨conf.read.maxKBps, conf.read.latency⟩
      up := ⟨conf.write.maxKBps, conf.write.latency⟩
      readFailureRatio := conf.read.failureRatio
      writeFailureRatio := conf.write.failureRatio }

/-- `true` iff the character occurs in the string
(Go `strings.IndexByte(s, c) >= 0`). -/
def hasChar (c : Char) : List Char → Bool
  | [] => false
  | a :: t => a = c || hasChar c t

/-- A character allowed in a bare (unbracketed) host of a normalized
`host:port` string: anything but `':'`, `'['`, `']'`. -/
def isBareHostChar (c : Char) : Bool :=
  !(c = ':' || c = '[' || c = ']')

/-- `true` iff every character of the string satisfies `f`. -/
def allChars (f : Char → Bool) : List Char → Bool
  | [] => true
  | a :: t => f a && allChars f t

/-- Splits at the last occurrence of `c`
(Go `strings.LastIndexByte`): `some (pre, post)` with
`s = pre ++ c :: post` and `c` not occurring in `post`. -/
def lastSplit (c : Char) : List Char → Option (List Char × List Char)
  | [] => none
  | a :: t =>
    match lastSplit c t with
    | some (pre, post) => some (a :: pre, post)
    | none => if a = c then some ([], t) else none

/-- Splits at the first occurrence of `c` (Go `strings.IndexByte`). -/
def firstSplit (c : Char) : List Char → Option (List Char × List Char)
  | [] => none
  | a :: t =>
    if a = c then some ([], t)
    else
      match firstSplit c t with
      | some (pre, post) => some (a :: pre, post)
      | none => none

/-- The error cases of Go `net.SplitHostPort`. -/
inductive AddrErr where
  | missingPort : AddrErr
  | tooManyColons : AddrErr
  | missingBracket : AddrErr
  | unexpectedBracket : AddrErr
  | unexpectedRBracket : AddrErr
deriving DecidableEq, Repr

/-- The bracketed (`"[host]:port"`) case of `net.SplitHostPort`,
reached when the address starts with `'['` and `rest` is everything
after that bracket.  Mirrors Go's handling: the first `']'` must be
followed by the last `':'`, after which only the port may follow. -/
def splitBracketed (rest : List Char) :
    Except AddrErr (List Char × List Char) :=
  match firstSplit ']' rest with
  | none => .error .missingBracket
  | some (h, tail) =>
    match tail with
    | [] => .error .missingPort
    | d :: p =>
      if d = ':' then
        if hasChar ':' p then .error .tooManyColons
        else if hasChar '[' h || hasChar '[' p then .error .unexpectedBracket
        else if hasChar ']' p then .error .unexpectedRBracket
        else .ok (h, p)
      else .error .missingPort

/-- Continuation of `net.SplitHostPort` once the last colon has been
located: `s = pre ++ ':' :: post` with no colon in `post`. -/
def splitRest (s pre post : List Char) :
    Except AddrErr (List Char × List Char) :=
  match s with
  | [] => .error .missingPort
  | c :: rest =>
    if c = '[' then splitBracketed rest
    else
      if hasChar ':' pre then .error .tooManyColons
      else if hasChar '[' pre || hasChar '[' post then
        .error .unexpectedBracket
      else if hasChar ']' pre || hasChar ']' post then
        .error .unexpectedRBracket
      else .ok (pre, post)

/-- Embedding of Go `net.SplitHostPort`: locate the last `':'`; handle
`"[host]:port"` when the string starts with `'['`, else split there,
rejecting stray `':'`, `'['`, `']'`. -/
def splitHostPort (s : List Char) : Except AddrErr (List Char × List Char) :=
  match lastSplit ':' s with
  | none => .error .missingPort
  | some (pre, post) => splitRest s pre post

/-- Embedding of Go `net.JoinHostPort`: brackets the host iff it
contains a colon. -/
def joinHostPort (host port : List Char) : List Char :=
  if hasChar ':' host then '[' :: host ++ ']' :: ':' :: port
  else host ++ ':' :: port

/-- The default port `"80"` used by `targetAddress`. -/
def defaultHTTPPort : List Char := ['8', '0']

/-- Embedding of `Config.targetAddress` (current revision):

```go
func (c Config) targetAddress() string {
    host := c.Target
    port := "80"
    if u, err := url.Parse(c.Target); err == nil && u.Host != "" {
        host = u.Host
    }
    if h, p, err := net.SplitHostPort(host); err == nil {
        host = h
        if p != "" {
            port = p
        }
    }
    return net.JoinHostPort(host, port)
}
```

`net/url.Parse` is an external collaborator (the spec places the URL
half of target-address normalization outside the core); its outcome is
supplied as the `urlHost` parameter: `some h` iff `url.Parse(target)`
returned no error and a nonempty `Host` field `h`, `none` otherwise.
For a plain `host:port` string (no `"//"`), Go's `url.Parse` either
fails or yields an empty `Host`, so such inputs correspond to
`urlHost = none`. -/
def targetAddress (urlHost : Option (List Char)) (target : List Char) :
    List Char :=
  let host := match urlHost with | some h => h | none => target
  match splitHostPort host with
  | .ok (h, p) => joinHostPort h (if p = [] then defaultHTTPPort else p)
  | .error _ => joinHostPort host defaultHTTPPort

/-- Numeric value of a decimal digit character. -/
def digitVal (c : Char) : Nat := c.toNat - Char.toNat '0'

/-- Value of a decimal digit string, most significant digit first. -/
def digitsValueAux (acc : Nat) : List Char → Nat
  | [] => acc
  | c :: t => digitsValueAux (acc * 10 + digitVal c) t

/-- Value of a decimal digit string. -/
def digitsValue (s : List Char) : Nat := digitsValueAux 0 s

/-- The digits-and-range part of Go
`strconv.ParseInt(s, 10, 32)` after the optional sign: every
character must be a decimal digit and the magnitude must fit `int32`
(`<= 2^31` when negated, `< 2^31` otherwise); otherwise the parse
errors (`none`). -/
def parseIntDigits (neg : Bool) (digits : List Char) : Option Int :=
  if digits = [] then none
  else if allChars Char.isDigit digits then
    if neg then
      if digitsValue digits ≤ 2 ^ 31 then some (-(digitsValue digits : Int))
      else none
    else
      if digitsValue digits < 2 ^ 31 then some ((digitsValue digits : Int))
      else none
  else none

/-- Embedding of Go `strconv.ParseInt(s, 10, 32)` (value level):
optional leading sign, then decimal digits fitting `int32`. -/
def parseInt10 (s : List Char) : Option Int :=
  match s with
  | [] => none
  | c :: rest =>
    if c = '+' then parseIntDigits false rest
    else if c = '-' then parseIntDigits true rest
    else parseIntDigits false (c :: rest)

/-- Embedding of `Proxy.Port` (current revision):

```go
func (p *Proxy) Port() int {
    _, port, err := net.SplitHostPort(p.BindAddr())
    if err != nil {
        return -1
    }
    n, err := strconv.ParseInt(port, 10, 32)
    if err != nil {
        return -1
    }
    return int(n)
}
```

`bindAddr` is the string returned by `BindAddr()`. -/
def Port (bindAddr : List Char) : Int :=
  match splitHostPort bindAddr with
  | .error _ => -1
  | .ok (_, p) =>
    match parseInt10 p with
    | none => -1
    | some n => n

end Badnet

namespace Badnet

/-- If `f` rejects `c` and accepts every character of `s`, then `c`
does not occur in `s`. -/
theorem allChars_no_char (f : Char → Bool) (c : Char) (hfc : f c = false)
    (s : List Char) (hs : allChars f s = true) : hasChar c s = false := by
  induction s with
  | nil => rfl
  | cons a t ih =>
    have hs2 : f a = true ∧ allChars f t = true := by
      simpa [allChars, Bool.and_eq_true] using hs
    have hac : a ≠ c := by
      intro hh
      rw [hh, hfc] at hs2
      exact Bool.noConfusion hs2.1
    simp [hasChar, hac, ih hs2.2]

/-- A character absent from a string is not found by `lastSplit`. -/
theorem lastSplit_none (c : Char) (s : List Char)
    (hs : hasChar c s = false) : lastSplit c s = none := by
  induction s with
  | nil => rfl
  | cons a t ih =>
    have h1 : a ≠ c ∧ hasChar c t = false := by
      simpa [hasChar] using hs
    simp [lastSplit, ih h1.2, h1.1]

/-- `lastSplit` splits exactly at the last occurrence. -/
theorem lastSplit_append (c : Char) (pre post : List Char)
    (hpost : hasChar c post = false) :
    lastSplit c (pre ++ c :: post) = some (pre, post) := by
  induction pre with
  | nil => simp [lastSplit, lastSplit_none c post hpost]
  | cons a t ih => simp [lastSplit, ih]

/-- `firstSplit` splits exactly at the first occurrence. -/
theorem firstSplit_append (c : Char) (pre post : List Char)
    (hpre : hasChar c pre = false) :
    firstSplit c (pre ++ c :: post) = some (pre, post) := by
  induction pre with
  | nil => simp [firstSplit]
  | cons a t ih =>
    have h1 : a ≠ c ∧ hasChar c t = false := by
      simpa [hasChar] using hpre
    simp [firstSplit, h1.1, ih h1.2]

/-- `splitHostPort` on a plain `host:port` with a bracket- and
colon-free host and a colon/bracket-free nonempty-or-empty port
succeeds and returns the two components. -/
theorem splitHostPort_plain (h p : List Char)
    (hh : allChars isBareHostChar h = true)
    (hp1 : hasChar ':' p = false) (hp2 : hasChar '[' p = false)
    (hp3 : hasChar ']' p = false) :
    splitHostPort (h ++ ':' :: p) = .ok (h, p) := by
  have hc : hasChar ':' h = false :=
    allChars_no_char isBareHostChar ':' (by decide) h hh
  have hb1 : hasChar '[' h = false :=
    allChars_no_char isBareHostChar '[' (by decide) h hh
  have hb2 : hasChar ']' h = false :=
    allChars_no_char isBareHostChar ']' (by decide) h hh
  have hL : lastSplit ':' (h ++ ':' :: p) = some (h, p) :=
    lastSplit_append ':' h p hp1
  unfold splitHostPort
  rw [hL]
  cases h with
  | nil => simp [splitRest, hasChar, hp2, hp3]
  | cons a t =>
    have ha : isBareHostChar a = true ∧
        allChars isBareHostChar t = true := by
      simpa [allChars, Bool.and_eq_true] using hh
    have hab : a ≠ '[' := by
      intro hh2
      rw [hh2] at ha
      exact absurd ha.1 (by decide)
    simp [splitRest, hab, hc, hb1, hb2, hp2, hp3]

/-- `splitHostPort` on a bracketed `"[host]:port"` with a bracket-free
host and a colon/bracket-free port succeeds and strips the brackets. -/
theorem splitHostPort_bracketed (h p : List Char)
    (hh1 : hasChar '[' h = false) (hh2 : hasChar ']' h = false)
    (hp1 : hasChar ':' p = false) (hp2 : hasChar '[' p = false)
    (hp3 : hasChar ']' p = false) :
    splitHostPort ('[' :: h ++ ']' :: ':' :: p) = .ok (h, p) := by
  have hshape : '[' :: h ++ ']' :: ':' :: p =
      ('[' :: h ++ [']']) ++ ':' :: p := by simp
  have hL : lastSplit ':' (('[' :: h ++ [']']) ++ ':' :: p) =
      some ('[' :: h ++ [']'], p) :=
    lastSplit_append ':' ('[' :: h ++ [']']) p hp1
  have hF : firstSplit ']' (h ++ ']' :: ':' :: p) = some (h, ':' :: p) :=
    firstSplit_append ']' h (':' :: p) hh2
  unfold splitHostPort
  rw [hshape, hL]
  simp [splitRest, splitBracketed, hF, hp1, hh1, hp2, hp3]

end Badnet

namespace Badnet

/-- Claim C1: `shouldFail(ratio)` returns `false` whenever `ratio <= 0`,
returns `true` whenever `ratio >= 100`, and for a uniform draw in
`[0,100)` returns `true` iff the draw is strictly less than the ratio. -/
theorem claim1_shouldFail_spec (ratio : Int) (draw : Nat) :
    (ratio ≤ 0 → shouldFail ratio draw = false) ∧
    (draw < 100 → 100 ≤ ratio → shouldFail ratio draw = true) ∧
    (draw < 100 → (shouldFail ratio draw = true ↔ (draw : Int) < ratio)) := by
  refine ⟨fun h => ?_, fun hd h => ?_, fun hd => ?_⟩
  · simp [shouldFail, h]
  · have h0 : ¬ ratio ≤ 0 := by omega
    have : (draw : Int) < ratio := by
      have : (draw : Int) < 100 := by exact_mod_cast hd
      omega
    simp [shouldFail, h0, this]
  · by_cases h : ratio ≤ 0
    · have : ¬ ((draw : Int) < ratio) := by
        have : (0 : Int) ≤ (draw : Int) := Int.ofNat_nonneg draw
        omega
      simp [shouldFail, h, this]
    · simp [shouldFail, h]

/-- Witness for C1 at ratio 50, draw 10. -/
theorem claim1_shouldFail_spec_witness :
    (10 : Nat) < 100 ∧ shouldFail 50 10 = true :=
  ⟨by decide, ((claim1_shouldFail_spec 50 10).2.2 (by decide)).mpr (by decide)⟩

/-- Claim C2: when the fault coin fires on `Read(b)` or `Write(b)`, at
most the first `len(b)/2` bytes are transferred through the underlying
connection (for a well-formed underlying reader/writer), and the call
returns a non-nil error, specifically `io.ErrUnexpectedEOF` whenever the
underlying half-transfer itself succeeded with no error. -/
theorem claim2_fault_truncates_and_errors
    (rr wr : Int) (dr dw lenB : Nat) (ur uw : Nat → XferResult)
    (hur : XferWF ur) (huw : XferWF uw)
    (hr : shouldFail rr dr = true) (hw : shouldFail wr dw = true) :
    ((connRead rr dr lenB ur).n ≤ lenB / 2 ∧
      (connRead rr dr lenB ur).err ≠ none ∧
      ((ur (lenB / 2)).err = none →
        (connRead rr dr lenB ur).err = some .errUnexpectedEOF)) ∧
    ((connWrite wr dw lenB uw).n ≤ lenB / 2 ∧
      (connWrite wr dw lenB uw).err ≠ none ∧
      ((uw (lenB / 2)).err = none →
        (connWrite wr dw lenB uw).err = some .errUnexpectedEOF)) := by
  constructor
  · simp only [connRead, hr, if_true]
    rcases h : (ur (lenB / 2)).err with _ | e
    · exact ⟨hur (lenB / 2), by simp, fun _ => rfl⟩
    · exact ⟨hur (lenB / 2), by simp, fun hc => by simp [h] at hc⟩
  · simp only [connWrite, hw, if_true]
    rcases h : (uw (lenB / 2)).err with _ | e
    · exact ⟨huw (lenB / 2), by simp, fun _ => rfl⟩
    · exact ⟨huw (lenB / 2), by simp, fun hc => by simp [h] at hc⟩

/-- Witness for C2: ratio 100 always fires; an underlying transfer that
fills every byte it is offered and never errors is truncated to 4 of 8
bytes and reported as `io.ErrUnexpectedEOF`. -/
theorem claim2_fault_truncates_and_errors_witness :
    shouldFail 100 5 = true ∧
    (connRead 100 5 8 (fun cap => ⟨cap, none⟩)).n ≤ 4 ∧
    (connRead 100 5 8 (fun cap => ⟨cap, none⟩)).err =
      some IOErr.errUnexpectedEOF ∧
    (connWrite 100 5 8 (fun cap => ⟨cap, none⟩)).err =
      some IOErr.errUnexpectedEOF := by
  have h := claim2_fault_truncates_and_errors 100 100 5 5 8
    (fun cap => ⟨cap, none⟩) (fun cap => ⟨cap, none⟩)
    (fun cap => Nat.le_refl cap) (fun cap => Nat.le_refl cap)
    (by decide) (by decide)
  exact ⟨by decide, h.1.1, h.1.2.2 rfl, h.2.2.2 rfl⟩

/-- Claim C3: when the fault coin fires on `Read(b)` and the underlying
half-read returns an error, that same error is returned to the caller
together with the byte count the underlying read actually produced. -/
theorem claim3_fault_read_propagates_underlying_error
    (ratio : Int) (draw lenB : Nat) (u : Nat → XferResult) (e : IOErr)
    (hf : shouldFail ratio draw = true)
    (he : (u (lenB / 2)).err = some e) :
    connRead ratio draw lenB u = ⟨(u (lenB / 2)).n, some e⟩ := by
  simp [connRead, hf, he]

/-- Witness for C3: an underlying read that reports 3 bytes and a
genuine error has both propagated unchanged. -/
theorem claim3_fault_read_propagates_underlying_error_witness :
    shouldFail 100 0 = true ∧
    connRead 100 0 10 (fun _ => ⟨3, some (IOErr.other 7)⟩) =
      ⟨3, some (IOErr.other 7)⟩ :=
  ⟨by decide,
    claim3_fault_read_propagates_underlying_error 100 0 10
      (fun _ => ⟨3, some (IOErr.other 7)⟩) (IOErr.other 7)
      (by decide) rfl⟩

/-- Claim C4: `FailureRatio` is `(read faults + write faults + dial
failures) / accepted connections`, and `0` when no connection has been
accepted (no division by zero). -/
theorem claim4_failureRatio_formula (s : Stats) :
    (s.connectionCount = 0 → FailureRatio s = 0) ∧
    (s.connectionCount ≠ 0 →
      FailureRatio s =
        ((s.readFailures + s.writeFailures + s.targetFailures : Nat) : ℚ) /
          (s.connectionCount : ℚ)) := by
  constructor
  · intro h
    simp [FailureRatio, h]
  · intro h
    simp [FailureRatio, Nat.cast_eq_zero, h]

/-- Witness for C4: with 2 accepted connections and 1 read fault the
ratio is 1/2. -/
theorem claim4_failureRatio_formula_witness :
    (Stats.mk 2 1 0 0).connectionCount ≠ 0 ∧
    FailureRatio (Stats.mk 2 1 0 0) = 1 / 2 := by
  refine ⟨by decide, ?_⟩
  rw [(claim4_failureRatio_formula (Stats.mk 2 1 0 0)).2 (by decide)]
  norm_num

/-- Claim C5: the listener setup is a hard pass-through of the raw
listener only if both directions configure zero throughput and zero
latency; whenever at least one direction is nonzero, accepted
connections go through the shaping layer.  (The current source in fact
always wraps, so the pass-through never occurs at all.) -/
theorem claim5_listener_shaping (conf : Config) :
    (newListener conf = .raw →
      conf.read.maxKBps = 0 ∧ conf.read.latency = 0 ∧
      conf.write.maxKBps = 0 ∧ conf.write.latency = 0) ∧
    ((conf.read.maxKBps ≠ 0 ∨ conf.read.latency ≠ 0 ∨
      conf.write.maxKBps ≠ 0 ∨ conf.write.latency ≠ 0) →
      ∃ l, newListener conf = .shaped l) :=
  ⟨fun h => by simp [newListener] at h, fun _ => ⟨_, rfl⟩⟩

/-- Witness for C5: a configuration with a 1 KBps read cap yields a
shaped listener. -/
theorem claim5_listener_shaping_witness :
    ∃ l, newListener (Config.mk [] [] ⟨1, 0, 50⟩ ⟨0, 0, 0⟩) = .shaped l :=
  (claim5_listener_shaping (Config.mk [] [] ⟨1, 0, 50⟩ ⟨0, 0, 0⟩)).2
    (Or.inl (by decide))

/-- Claim C6: when `Accept` errors, the loop exits silently if the error
is (or wraps) the deliberate `net.ErrClosed` teardown signal, and exits
reporting the error otherwise; the wrapping done by `listener.Accept`
preserves recognition of the teardown signal. -/
theorem claim6_accept_error_handling (e : IOErr) (dialOk : Bool) (s : Stats) :
    (errorsIsClosed e = true →
      acceptLoopStep (.error e) dialOk s = ⟨.exitClean, s, none⟩) ∧
    (errorsIsClosed e = false →
      acceptLoopStep (.error e) dialOk s = ⟨.exitError e, s, none⟩) ∧
    errorsIsClosed (listenerAcceptWrap .errClosed) = true :=
  ⟨fun h => by simp [acceptLoopStep, h],
   fun h => by simp [acceptLoopStep, h], rfl⟩

/-- Witness for C6: the wrapped `net.ErrClosed` produced by the
listener makes the loop exit cleanly; a genuine accept error is
reported. -/
theorem claim6_accept_error_handling_witness :
    acceptLoopStep (.error (listenerAcceptWrap .errClosed)) false
        (Stats.mk 0 0 0 0) =
      ⟨.exitClean, Stats.mk 0 0 0 0, none⟩ ∧
    acceptLoopStep (.error (IOErr.other 3)) false (Stats.mk 0 0 0 0) =
      ⟨.exitError (IOErr.other 3), Stats.mk 0 0 0 0, none⟩ :=
  ⟨(claim6_accept_error_handling (listenerAcceptWrap .errClosed) false
      (Stats.mk 0 0 0 0)).1 rfl,
   (claim6_accept_error_handling (IOErr.other 3) false
      (Stats.mk 0 0 0 0)).2.1 rfl⟩

/-- Claim C7: an accepted connection whose dial to the target fails
increments the dial-failure counter exactly once, has its inbound
connection closed, starts no relay, and leaves the accept loop running
(the accepted-connection counter having been bumped by the accept). -/
theorem claim7_dial_failure_session (s : Stats) :
    acceptLoopStep (.ok ()) false s =
      ⟨.continueLoop,
        { connectionCount := s.connectionCount + 1
          readFailures := s.readFailures
          writeFailures := s.writeFailures
          targetFailures := s.targetFailures + 1 },
        some ⟨true, false⟩⟩ := rfl

/-- Counterexample to C8 as stated: a genuine non-injected error —
modelled by `IOErr.other 0`, e.g. a real connection reset, which is
neither the injected `io.ErrUnexpectedEOF` nor `net.ErrClosed` —
terminating a relay leg DOES increment that leg's fault counter. -/
theorem claim8_counterexample :
    pipe (some (IOErr.other 0)) 0 = 1 := rfl

/-- Claim C8 (amended): a relay leg's fault counter is incremented for
any terminating `io.Copy` error that is not (and does not wrap) the
closed-connection signal `net.ErrClosed` — genuine errors included —
and is incremented at most once per relay-leg invocation, never on a
clean EOF, and never double-counted even if the underlying transport
itself also errored. -/
theorem claim8_pipe_counting (copyErr : Option IOErr) (c : Nat) :
    pipe copyErr c ≤ c + 1 ∧
    (copyErr = none → pipe copyErr c = c) ∧
    (∀ e, copyErr = some e →
      (errorsIsClosed e = true → pipe copyErr c = c) ∧
      (errorsIsClosed e = false → pipe copyErr c = c + 1)) := by
  rcases copyErr with _ | e
  · exact ⟨Nat.le_succ c, fun _ => rfl, fun e h => by simp at h⟩
  · refine ⟨?_, fun h => by simp at h, fun e2 h => ?_⟩
    · simp only [pipe]
      split
      · exact Nat.le_succ c
      · exact Nat.le_refl (c + 1)
    · obtain rfl : e = e2 := by injection h
      exact ⟨fun hc => by simp [pipe, hc], fun hc => by simp [pipe, hc]⟩

/-- Witness for C8 (amended): an injected fault (`io.ErrUnexpectedEOF`)
increments the counter exactly once. -/
theorem claim8_pipe_counting_witness :
    pipe (some IOErr.errUnexpectedEOF) 0 = 1 :=
  ((claim8_pipe_counting (some IOErr.errUnexpectedEOF) 0).2.2
    IOErr.errUnexpectedEOF rfl).2 rfl

/-- Claim C9: target-address normalization is idempotent on
already-normalized `host:port` strings — both on the plain form (bare
host, nonempty decimal port) and on the bracketed form `"[h]:port"`
that `JoinHostPort` produces for hosts containing colons.  For such
strings `url.Parse` yields no usable `Host` (`urlHost = none`). -/
theorem claim9_targetAddress_idempotent (h p : List Char) :
    (allChars isBareHostChar h = true → p ≠ [] →
      allChars Char.isDigit p = true →
      targetAddress none (h ++ ':' :: p) = h ++ ':' :: p) ∧
    (hasChar ':' h = true → hasChar '[' h = false →
      hasChar ']' h = false → p ≠ [] →
      allChars Char.isDigit p = true →
      targetAddress none ('[' :: h ++ ']' :: ':' :: p) =
        '[' :: h ++ ']' :: ':' :: p) := by
  constructor
  · intro hh hpne hpd
    have hp1 : hasChar ':' p = false :=
      allChars_no_char Char.isDigit ':' (by decide) p hpd
    have hp2 : hasChar '[' p = false :=
      allChars_no_char Char.isDigit '[' (by decide) p hpd
    have hp3 : hasChar ']' p = false :=
      allChars_no_char Char.isDigit ']' (by decide) p hpd
    have hs : splitHostPort (h ++ ':' :: p) = .ok (h, p) :=
      splitHostPort_plain h p hh hp1 hp2 hp3
    have hc : hasChar ':' h = false :=
      allChars_no_char isBareHostChar ':' (by decide) h hh
    simp [targetAddress, hs, joinHostPort, hc, hpne]
  · intro hcolon hh1 hh2 hpne hpd
    have hp1 : hasChar ':' p = false :=
      allChars_no_char Char.isDigit ':' (by decide) p hpd
    have hp2 : hasChar '[' p = false :=
      allChars_no_char Char.isDigit '[' (by decide) p hpd
    have hp3 : hasChar ']' p = false :=
      allChars_no_char Char.isDigit ']' (by decide) p hpd
    have hs : splitHostPort ('[' :: h ++ ']' :: ':' :: p) = .ok (h, p) :=
      splitHostPort_bracketed h p hh1 hh2 hp1 hp2 hp3
    have hs2 : splitHostPort ('[' :: (h ++ ']' :: ':' :: p)) = .ok (h, p) := by
      simpa using hs
    simp [targetAddress, hs2, joinHostPort, hcolon, hpne]

/-- Witness for C9: `"a:80"` and `"[a:b]:80"` are fixed points of the
normalizer. -/
theorem claim9_targetAddress_idempotent_witness :
    targetAddress none (['a'] ++ ':' :: ['8', '0']) =
      ['a'] ++ ':' :: ['8', '0'] ∧
    targetAddress none ('[' :: ['a', ':', 'b'] ++ ']' :: ':' :: ['8', '0']) =
      '[' :: ['a', ':', 'b'] ++ ']' :: ':' :: ['8', '0'] :=
  ⟨(claim9_targetAddress_idempotent ['a'] ['8', '0']).1
      (by decide) (by decide) (by decide),
   (claim9_targetAddress_idempotent ['a', ':', 'b'] ['8', '0']).2
      (by decide) (by decide) (by decide) (by decide) (by decide)⟩

/-- `strconv.ParseInt(p, 10, 32)` succeeds with the decimal value on a
nonempty all-digit string whose value fits `int32`. -/
theorem parseInt10_digits (p : List Char) (hne : p ≠ [])
    (hd : allChars Char.isDigit p = true)
    (hlt : digitsValue p < 2 ^ 31) :
    parseInt10 p = some ((digitsValue p : Int)) := by
  cases p with
  | nil => exact absurd rfl hne
  | cons c rest =>
    have hc : Char.isDigit c = true ∧
        allChars Char.isDigit rest = true := by
      simpa [allChars, Bool.and_eq_true] using hd
    have h1 : c ≠ '+' := by
      intro hh
      rw [hh] at hc
      exact absurd hc.1 (by decide)
    have h2 : c ≠ '-' := by
      intro hh
      rw [hh] at hc
      exact absurd hc.1 (by decide)
    simp [parseInt10, h1, h2, parseIntDigits, hd]
    omega

/-- Claim C10: `Port()` returns the decimal value of the port component
of the bind address, and returns `-1` (rather than failing) when the
bind address does not split into `host:port` or its port component does
not parse as a decimal integer. -/
theorem claim10_port_spec (addr : List Char) :
    (∀ e, splitHostPort addr = .error e → Port addr = -1) ∧
    (∀ h p, splitHostPort addr = .ok (h, p) → parseInt10 p = none →
      Port addr = -1) ∧
    (∀ h p, splitHostPort addr = .ok (h, p) → p ≠ [] →
      allChars Char.isDigit p = true → digitsValue p < 2 ^ 31 →
      Port addr = (digitsValue p : Int)) := by
  refine ⟨fun e he => ?_, fun h p hs hp => ?_, fun h p hs hne hd hlt => ?_⟩
  · simp [Port, he]
  · simp [Port, hs, hp]
  · simp [Port, hs, parseInt10_digits p hne hd hlt]

/-- Witness for C10: the bind address `"h:81"` has port 81, and a
bind address with no colon yields `-1`. -/
theorem claim10_port_spec_witness :
    Port ['h', ':', '8', '1'] = 81 ∧ Port ['h'] = -1 := by
  constructor
  · have h := (claim10_port_spec ['h', ':', '8', '1']).2.2 ['h'] ['8', '1']
      (by rfl) (by decide) (by decide) (by decide)
    simpa using h
  · exact (claim10_port_spec ['h']).1 AddrErr.missingPort (by rfl)

end Badnet
